import Mathlib

/-
Shallow embedding of the journalbeat core (github.com/mheese/journalbeat)
and verification of the frozen claims about its specification.

Modelling conventions:
* Go `common.MapStr` / `map[string]interface{}` values are modelled by the
  inductive type `Value`; Go maps are modelled as association lists
  (`List (String × α)`) with last-write-wins update (`mapUpdate`), which is
  the deterministic representation of an unordered Go map fed by a
  deterministic sequence of writes.
* Go `float64` values are modelled as exact rationals (`Rat`); rounding to
  binary64 is not modelled.  No claim under verification depends on a float
  being rounded.
* fallible Go operations return `Option`/`Except`; a Go panic (out-of-range
  index, failed type assertion) is the `none` branch of the guarded
  embedding.
-/

namespace Journalbeat

/-- Values of the dynamic `interface{}` domain used by `common.MapStr`:
strings, booleans, unsigned integers (`uint64`), signed integers (`int64`),
floats (`float64`, modelled as exact rationals) and nested maps. -/
inductive Value where
  | vstr : String → Value
  | vbool : Bool → Value
  | vuint : Nat → Value
  | vint : Int → Value
  | vfloat : Rat → Value
  | vmap : List (String × Value) → Value

/-- Go `common.MapStr`, modelled as an association list. -/
abbrev MapStr := List (String × Value)

/-- Go map assignment `m[k] = v`: replace in place if the key is present,
otherwise append the new entry. -/
def mapUpdate {α : Type} (m : List (String × α)) (k : String) (v : α) :
    List (String × α) :=
  if m.any (fun e => e.1 == k) then
    m.map (fun e => if e.1 == k then (k, v) else e)
  else
    m ++ [(k, v)]

/-- Go map read `m[k]` returning whether the key is present. -/
def mapLookup {α : Type} (m : List (String × α)) (k : String) : Option α :=
  (m.find? (fun e => e.1 == k)).map Prod.snd

/-- The keys of an association list, in representation order. -/
def listKeys {α : Type} (m : List (String × α)) : List String :=
  m.map Prod.fst

/-- Numeric value of a digit list (most significant first). -/
def digitsToNat (l : List Char) : Nat :=
  l.foldl (fun a c => a * 10 + (c.toNat - '0'.toNat)) 0

/-- Model of Go `strconv.ParseUint(s, 10, 64)`: digits only (no sign), value
must fit in 64 bits; on a range error Go returns a non-nil error, which the
caller treats as parse failure. -/
def goParseUint64 (s : String) : Option Nat :=
  let cs := s.data
  if cs ≠ [] ∧ cs.all Char.isDigit then
    let n := digitsToNat cs
    if n < 2 ^ 64 then some n else none
  else none

/-- Model of Go `strconv.ParseInt(s, 10, 64)`: optional sign, then digits,
value must fit in a signed 64-bit integer. -/
def goParseInt64 (s : String) : Option Int :=
  match s.data with
  | [] => none
  | c :: rest =>
    let p : Bool × List Char :=
      if c = '-' then (true, rest)
      else if c = '+' then (false, rest)
      else (false, c :: rest)
    if p.2 ≠ [] ∧ p.2.all Char.isDigit then
      let n := digitsToNat p.2
      if p.1 then
        if n ≤ 2 ^ 63 then some (-(n : Int)) else none
      else
        if n < 2 ^ 63 then some (n : Int) else none
    else none

/-- Largest finite binary64 value, used for the overflow check of the float
parser model. -/
def maxFloat64 : Rat := ((2 ^ 53 - 1 : Nat) : Rat) * (2 : Rat) ^ (971 : Nat)

/-- Exponent suffix of a Go float literal: empty, or `e`/`E`, an optional
sign and a non-empty digit string.  Returns the mantissa scaled by the
exponent. -/
def goParseFloatExp (mant : Rat) (cs : List Char) : Option Rat :=
  match cs with
  | [] => some mant
  | e :: rest =>
    if e = 'e' ∨ e = 'E' then
      let p : Bool × List Char :=
        match rest with
        | '-' :: r => (true, r)
        | '+' :: r => (false, r)
        | r => (false, r)
      if p.2 ≠ [] ∧ p.2.all Char.isDigit then
        let n := digitsToNat p.2
        if p.1 then some (mant / (10 : Rat) ^ n) else some (mant * (10 : Rat) ^ n)
      else none
    else none

/-- Model of Go `strconv.ParseFloat(s, 64)` restricted to decimal literals:
optional sign, integer part, optional fractional part, optional exponent.
Hexadecimal floats, `inf`/`nan` words, digit-separating underscores and
rounding of the resulting value to binary64 are outside the model; values
overflowing the finite binary64 range are rejected, as Go reports a range
error for them.  Only the success or failure of this parser, never the
numeric value it produces, is used by the claims under verification. -/
def goParseFloat64 (s : String) : Option Rat :=
  match s.data with
  | [] => none
  | cs =>
    let p : Bool × List Char :=
      match cs with
      | '-' :: r => (true, r)
      | '+' :: r => (false, r)
      | r => (false, r)
    let ip := p.2.takeWhile Char.isDigit
    let r1 := p.2.dropWhile Char.isDigit
    let res : Option Rat :=
      match r1 with
      | '.' :: r2 =>
        let fp := r2.takeWhile Char.isDigit
        let r3 := r2.dropWhile Char.isDigit
        if ip = [] ∧ fp = [] then none
        else
          goParseFloatExp (((digitsToNat (ip ++ fp) : Nat) : Rat) / (10 : Rat) ^ fp.length) r3
      | _ =>
        if ip = [] then none
        else goParseFloatExp ((digitsToNat ip : Nat) : Rat) r1
    match res with
    | none => none
    | some v =>
      if v ≤ maxFloat64 then some (if p.1 then -v else v) else none

/-- Embedding of `makeNewValue` (src/beater/convert.go lines 115-142).
The Go `switch value` first matches the six hard boolean spellings — before
and regardless of the `convertToNumbers` flag — and only in the `default`
arm checks the flag and runs the numeric parse chain. -/
def makeNewValue (value : String) (convertToNumbers : Bool) : Value :=
  if value = "true" ∨ value = "TRUE" ∨ value = "True" then Value.vbool true
  else if value = "false" ∨ value = "FALSE" ∨ value = "False" then Value.vbool false
  else if convertToNumbers = false then Value.vstr value
  else
    match goParseUint64 value with
    | some ui => Value.vuint ui
    | none =>
      match goParseInt64 value with
      | some si => Value.vint si
      | none =>
        match goParseFloat64 value with
        | some fl => Value.vfloat fl
        | none => Value.vstr value

/-- Modelled from the spec: the boolean parse attempt, accepting exactly the
spellings true/TRUE/True and false/FALSE/False. -/
def specParseBool (s : String) : Option Bool :=
  if s = "true" ∨ s = "TRUE" ∨ s = "True" then some true
  else if s = "false" ∨ s = "FALSE" ∨ s = "False" then some false
  else none

/-- Modelled from the spec: the documented ordered parser chain — boolean,
then unsigned integer, then signed integer, then float — first success wins,
and a value failing every parse remains a string. -/
def specOrderedScalar (s : String) : Value :=
  match specParseBool s with
  | some b => Value.vbool b
  | none =>
    match goParseUint64 s with
    | some ui => Value.vuint ui
    | none =>
      match goParseInt64 s with
      | some si => Value.vint si
      | none =>
        match goParseFloat64 s with
        | some fl => Value.vfloat fl
        | none => Value.vstr s

/-! ## Delivery Tracker (src/beater/state.go lines 54-145) -/

/-- Embedding of the local function `diff` (state.go lines 63-71): the
entries of `this` whose key does not occur in `other`. -/
def diff (this other : List (String × MapStr)) : List (String × MapStr) :=
  this.filter (fun e => !(other.any (fun o => o.1 == e.1)))

/-- State owned by `managePendingQueueLoop`: the two in-memory maps, the
change flag, the pending-queue file content last persisted by `flush`, and a
count of file writes (to observe skipped flushes). -/
structure TrackerState where
  pending : List (String × MapStr)
  completed : List (String × MapStr)
  queueChanged : Bool
  fileContent : List (String × MapStr)
  writeCount : Nat

/-- The three events the select loop of `managePendingQueueLoop` reacts to:
a dispatched record arriving on the `pending` channel, an acknowledgment
arriving on the `completed` channel, and a reconciliation timer tick. -/
inductive QueueEvent where
  | pendingEv : String → MapStr → QueueEvent
  | completedEv : String → MapStr → QueueEvent
  | tick : QueueEvent

/-- One iteration of the select loop of `managePendingQueueLoop`
(state.go lines 117-144).  A tick with an unchanged queue is skipped; a tick
with a changed queue flushes `diff pending completed` to the file, replaces
`pending` with it, clears `completed` and resets the change flag. -/
def managePendingQueueStep (s : TrackerState) (e : QueueEvent) : TrackerState :=
  match e with
  | .pendingEv c b =>
    { s with pending := mapUpdate s.pending c b, queueChanged := true }
  | .completedEv c b =>
    { s with completed := mapUpdate s.completed c b, queueChanged := true }
  | .tick =>
    if s.queueChanged = false then s
    else
      let result := diff s.pending s.completed
      { pending := result
        completed := []
        queueChanged := false
        fileContent := result
        writeCount := s.writeCount + 1 }

/-- The select loop run over a sequence of events. -/
def managePendingQueueRun (s : TrackerState) (es : List QueueEvent) : TrackerState :=
  es.foldl managePendingQueueStep s

/-- Initial tracker state: empty maps, unchanged flag, empty pending file. -/
def initialTrackerState : TrackerState :=
  { pending := [], completed := [], queueChanged := false, fileContent := [], writeCount := 0 }

/-- The end-to-end event sequence of the claim: dispatch records with
cursors c1..c5, receive acknowledgments for c2 and c4 only, then a
reconciliation tick. -/
def dispatchAckEvents : List QueueEvent :=
  [ .pendingEv "c1" [("m", Value.vstr "b1")]
  , .pendingEv "c2" [("m", Value.vstr "b2")]
  , .pendingEv "c3" [("m", Value.vstr "b3")]
  , .pendingEv "c4" [("m", Value.vstr "b4")]
  , .pendingEv "c5" [("m", Value.vstr "b5")]
  , .completedEv "c2" [("m", Value.vstr "b2")]
  , .completedEv "c4" [("m", Value.vstr "b4")]
  , .tick ]

/-! ## Cursor Persister (src/beater/state.go lines 148-190 and the dispatch
path of `Run`, src/beater/journalbeat.go lines 209-217) -/

/-- State owned by `writeCursorLoop`: the loop variable `cursor` (the most
recently received value from `cursorChan`), the cursor state file content,
and the ordered log of every value written to the file. -/
structure CursorState where
  cursor : String
  stateFile : Option String
  writeLog : List String

/-- The events visible to the checkpointing path: an intake — `Run`
publishing a record and sending its cursor on `cursorChan` (the Bool records
whether the flush timer had fired when the loop received it) — and an
acknowledgment arriving from the sink, which `Run` routes to the `completed`
channel, never to `cursorChan`. -/
inductive RunEvent where
  | intake : String → Bool → RunEvent
  | ack : String → RunEvent

/-- Embedding of the local function `saveCursorState` (state.go lines
153-174): an empty cursor is never written; otherwise the value is written
to the cursor state file via the temp-file-and-rename path. -/
def saveCursorState (s : CursorState) (c : String) : CursorState :=
  if c = "" then s
  else { s with stateFile := some c, writeLog := s.writeLog ++ [c] }

/-- One iteration of `writeCursorLoop` (state.go lines 183-189): receive the
next cursor into the loop variable and, only when the timer tick is pending,
save it; acknowledgments never reach this loop. -/
def writeCursorStep (s : CursorState) (e : RunEvent) : CursorState :=
  match e with
  | .intake c tickFired =>
    let s1 := { s with cursor := c }
    if tickFired then saveCursorState s1 s1.cursor else s1
  | .ack _ => s

/-- The cursor loop run over a sequence of events. -/
def writeCursorRun (s : CursorState) (es : List RunEvent) : CursorState :=
  es.foldl writeCursorStep s

/-- The deferred final flush of `writeCursorLoop` (state.go line 179), run
after `cursorChan` has been fully consumed. -/
def writeCursorShutdown (s : CursorState) : CursorState :=
  saveCursorState s s.cursor

/-- Whether an event is an intake on `cursorChan`. -/
def isIntake : RunEvent → Bool
  | .intake _ _ => true
  | .ack _ => false

/-- The cursors received on `cursorChan`, in intake order. -/
def intakeCursors : List RunEvent → List String
  | [] => []
  | .intake c _ :: es => c :: intakeCursors es
  | .ack _ :: es => intakeCursors es

/-- Initial state of the cursor loop: `var cursor string` is empty and
nothing has been written. -/
def initialCursorState : CursorState :=
  { cursor := "", stateFile := none, writeLog := [] }

/-- The last element of a list, or the default when the list is empty. -/
def lastOrDefault : List String → String → String
  | [], d => d
  | c :: cs, _ => lastOrDefault cs c

/-! ## Continuation Buffer (src/beater/journalbeat.go lines 497-538) -/

/-- Embedding of the `LogBuffer` struct: the buffer age (time of the last
append, modelled as an abstract clock value), the stream key and the
buffered record. -/
structure LogBuffer where
  time : Nat
  logType : String
  logEvent : MapStr

/-- Go type assertion `m[k].(string)`: succeeds only when the key is
present and holds a string. -/
def lookupStr (m : MapStr) (k : String) : Option String :=
  match mapLookup m k with
  | some (Value.vstr s) => some s
  | _ => none

/-- Embedding of `flushOrBufferLogs` (journalbeat.go lines 508-538), the
guarded (`Option`-returning) form: `none` is a Go panic — the failed type
assertions on the `message` and `logBufferingType` fields, the out-of-range
index `arrChars[0]` on an empty message (the byte-0 test equals a
first-character test because the continuation markers are ASCII), or the
failed assertion on the buffered message of the merge branch.  On success it
returns the updated buffer map and the records flushed to the sink. -/
def flushOrBufferLogs (now : Nat) (bufs : List (String × LogBuffer)) (event : MapStr) :
    Option (List (String × LogBuffer) × List MapStr) :=
  match lookupStr event "message", lookupStr event "logBufferingType" with
  | some newLogMessage, some logType =>
    match newLogMessage.data with
    | [] => none
    | c0 :: _ =>
      if c0 = ' ' ∨ c0 = '\t' then
        match mapLookup bufs logType with
        | some oldLog =>
          match lookupStr oldLog.logEvent "message" with
          | some oldMessage =>
            let merged := mapUpdate oldLog.logEvent "message"
              (Value.vstr (oldMessage ++ "\n" ++ newLogMessage))
            some (mapUpdate bufs logType { oldLog with logEvent := merged, time := now }, [])
          | none => none
        | none =>
          some (mapUpdate bufs logType { time := now, logType := logType, logEvent := event }, [])
      else
        let old := mapLookup bufs logType
        let bufs1 := mapUpdate bufs logType { time := now, logType := logType, logEvent := event }
        match old with
        | some oldLogBuffer => some (bufs1, [oldLogBuffer.logEvent])
        | none => some (bufs1, [])
  | _, _ => none

/-- Sequential intake of records by the continuation buffer, collecting
every record flushed to the sink in order. -/
def runFlushOrBufferLogs (now : Nat) (bufs : List (String × LogBuffer)) :
    List MapStr → Option (List (String × LogBuffer) × List MapStr)
  | [] => some (bufs, [])
  | e :: es =>
    match flushOrBufferLogs now bufs e with
    | none => none
    | some r =>
      match runFlushOrBufferLogs now r.1 es with
      | none => none
      | some r2 => some (r2.1, r.2 ++ r2.2)

/-- A record carrying the given message for stream key k, as produced by
the `Run` loop. -/
def contEvent (m : String) : MapStr :=
  [("message", Value.vstr m), ("logBufferingType", Value.vstr "k")]

/-- The four records of the continuation-merge claim, in arrival order. -/
def contScene : List MapStr :=
  [ contEvent "error in foo"
  , contEvent " stack line 1"
  , contEvent " stack line 2"
  , contEvent "next message" ]

/-! ## Event Transformer (src/beater/convert.go lines 54-113) -/

/-- The `PriorityConversionMap` table (convert.go lines 54-63). -/
def PriorityConversionMap : List (String × String) :=
  [ ("0", "emergency"), ("1", "alert"), ("2", "critical"), ("3", "error")
  , ("4", "warning"), ("5", "notice"), ("6", "informational"), ("7", "debug") ]

/-- Go map read with zero-value default: `m[k]` is the empty string when
the key is absent. -/
def goMapGetD (m : List (String × String)) (k : String) : String :=
  ((m.find? (fun e => e.1 == k)).map Prod.snd).getD ""

/-- Model of Go `strings.ToLower` for ASCII, which covers journald field
names. -/
def goToLower (s : String) : String :=
  String.mk (s.data.map Char.toLower)

/-- Embedding of `makeNewKey` (convert.go lines 107-113): lowercase the key
and strip every leading underscore. -/
def makeNewKey (key : String) (cleanKeys : Bool) : String :=
  if cleanKeys = false then key
  else String.mk ((goToLower key).data.dropWhile (fun c => c == '_'))

/-- The body of the field loop of `MapStrFromJournalEntry` (convert.go
lines 87-95): clean the key, apply the priority and facility translations
(the source consults `PriorityConversionMap` in both branches), convert the
value. -/
def processField (cleanKeys convertToNumbers parsePriority parseFacility : Bool)
    (kv : String × String) : String × Value :=
  let nk := makeNewKey kv.1 cleanKeys
  let v1 := if nk = "priority" ∧ parsePriority = true
    then goMapGetD PriorityConversionMap kv.2 else kv.2
  let v2 := if nk = "syslog_facility" ∧ parseFacility = true
    then goMapGetD PriorityConversionMap v1 else v1
  (nk, makeNewValue v2 convertToNumbers)

/-- Accumulator pass of `goStringsSplit`. -/
def splitOnCharAux (sep : Char) : List Char → List Char → List String
  | [], acc => [String.mk acc.reverse]
  | c :: rest, acc =>
    if c = sep then String.mk acc.reverse :: splitOnCharAux sep rest []
    else splitOnCharAux sep rest (c :: acc)

/-- Model of Go `strings.Split(s, sep)` for a one-character separator (the
source only splits on "."): the segments between separator occurrences,
with a singleton list holding the whole (possibly empty) string when the
separator does not occur. -/
def goStringsSplit (s : String) (sep : Char) : List String :=
  splitOnCharAux sep s.data []

/-- The chain of nested empty maps installed before the field loop
(convert.go lines 78-84), with the given map at the deepest position. -/
def nestChain : List String → MapStr → Value
  | [], tgt => Value.vmap tgt
  | d :: ds, tgt => Value.vmap [(d, nestChain ds tgt)]

/-- Embedding of `MapStrFromJournalEntry` (convert.go lines 72-105).

The Go function builds the nested chain inside `m` first and keeps `target`
as an alias of its deepest map; during the field loop, fields named
`message` are written to `m` at the top level and all others to `target`.
The pure rendering of that mutation pattern: the non-message fields fold
into the deepest map; the top level is the single chain entry; the message
writes collapse to one `mapUpdate` of the final message value (in-place
replacement on repeated writes means the last value wins, and when the head
of the relocation path is itself `message` that update replaces the chain
entry, exactly as the Go aliasing does, orphaning the relocated fields).
With an empty relocation path `target` and `m` are one map and every field
folds into it in iteration order. -/
def MapStrFromJournalEntry (fields : List (String × String))
    (cleanKeys convertToNumbers : Bool) (moveMetadataLocation : String)
    (parsePriority parseFacility : Bool) : MapStr :=
  let processed :=
    fields.map (processField cleanKeys convertToNumbers parsePriority parseFacility)
  if moveMetadataLocation = "" then
    processed.foldl (fun m e => mapUpdate m e.1 e.2) []
  else
    let target := (processed.filter (fun e => !(e.1 == "message"))).foldl
        (fun t e => mapUpdate t e.1 e.2) []
    let top : MapStr :=
      match goStringsSplit moveMetadataLocation '.' with
      | [] => []
      | d :: ds => [(d, nestChain ds target)]
    match (processed.filter (fun e => e.1 == "message")).getLast? with
    | some e => mapUpdate top "message" e.2
    | none => top

/-- Follow nested maps along a path of keys. -/
def nestedAt : MapStr → List String → Option MapStr
  | m, [] => some m
  | m, d :: ds =>
    match mapLookup m d with
    | some (Value.vmap inner) => nestedAt inner ds
    | _ => none

/-! ## Pending-queue persistence: `flush` encodes the map with
`encoding/json` (state.go lines 74-87) and `publishPending` decodes it back
into `map[string]common.MapStr` (journalbeat.go lines 126-144) -/

/-- JSON values as produced by `encoding/json`: strings, booleans, numbers
and objects (the pending queue serializes no arrays or nulls). -/
inductive JVal where
  | jstr : String → JVal
  | jbool : Bool → JVal
  | jnum : Rat → JVal
  | jobj : List (String × JVal) → JVal

mutual

/-- Go `json.Encoder.Encode` on a dynamic value: every numeric Go type is
emitted as a JSON number. -/
def encodeValue : Value → JVal
  | .vstr s => .jstr s
  | .vbool b => .jbool b
  | .vuint n => .jnum (n : Rat)
  | .vint i => .jnum (i : Rat)
  | .vfloat q => .jnum q
  | .vmap l => .jobj (encodeFields l)

/-- Encoding of the entries of a map value. -/
def encodeFields : List (String × Value) → List (String × JVal)
  | [] => []
  | e :: rest => (e.1, encodeValue e.2) :: encodeFields rest

end

mutual

/-- Go `json.Decoder.Decode` into `interface{}`: a JSON number always
decodes to a `float64`, whatever Go type produced it. -/
def decodeValue : JVal → Value
  | .jstr s => .vstr s
  | .jbool b => .vbool b
  | .jnum q => .vfloat q
  | .jobj l => .vmap (decodeFields l)

/-- Decoding of the entries of a JSON object. -/
def decodeFields : List (String × JVal) → List (String × Value)
  | [] => []
  | e :: rest => (e.1, decodeValue e.2) :: decodeFields rest

end

/-- The pending map persisted by `flush`: cursor to record body. -/
abbrev PendingMap := List (String × MapStr)

/-- `flush` encoding the whole pending map to the pending-queue file. -/
def encodePendingFile (m : PendingMap) : JVal :=
  .jobj (m.map (fun e => (e.1, JVal.jobj (encodeFields e.2))))

/-- Decoding into a `common.MapStr` value: the JSON value must be an
object. -/
def decodeBody : JVal → Option MapStr
  | .jobj l => some (decodeFields l)
  | _ => none

/-- Decoding of the top-level entries of the pending-queue file. -/
def decodePendingEntries : List (String × JVal) → Option PendingMap
  | [] => some []
  | e :: rest =>
    match decodeBody e.2, decodePendingEntries rest with
    | some b, some r => some ((e.1, b) :: r)
    | _, _ => none

/-- `publishPending` decoding the pending-queue file into
`map[string]common.MapStr`. -/
def decodePendingFile : JVal → Option PendingMap
  | .jobj l => decodePendingEntries l
  | _ => none

mutual

/-- Whether a value contains no integer-typed scalar (the values whose
types survive a JSON round trip through `interface{}`). -/
def valueIntFree : Value → Bool
  | .vstr _ => true
  | .vbool _ => true
  | .vuint _ => false
  | .vint _ => false
  | .vfloat _ => true
  | .vmap l => fieldsIntFree l

/-- `valueIntFree` over the entries of a map. -/
def fieldsIntFree : List (String × Value) → Bool
  | [] => true
  | e :: rest => valueIntFree e.2 && fieldsIntFree rest

end

/-- `fieldsIntFree` over a whole pending map. -/
def pendingIntFree (m : PendingMap) : Bool :=
  m.all (fun e => fieldsIntFree e.2)

/-- Observer used by the round-trip counterexample: whether the single
value of a singleton pending map is float-typed. -/
def pendingProbe : Option PendingMap → Bool
  | some [(_, [(_, Value.vfloat _)])] => true
  | _ => false

/-! ## Atomic flush to the pending-queue file (state.go lines 74-87) -/

/-- Outcomes of the three fallible steps of `flush`. -/
structure FlushEnv where
  tempCreateOk : Bool
  encodeOk : Bool
  renameOk : Bool

/-- The disk as `flush` sees it: the destination pending-queue file and the
temporary file (`none` = absent; `some none` = created but not completely
written; `some (some m)` = holding the complete encoding of `m`). -/
structure DiskState where
  dest : Option PendingMap
  temp : Option (Option PendingMap)

/-- Embedding of the local function `flush` (state.go lines 74-87): create
a temporary file next to the target, encode the map into it, close it, and
rename it over the destination.  Each failing step returns its error
immediately; the rename is the only step that touches the destination. -/
def flushPendingQueue (env : FlushEnv) (source : PendingMap) (disk : DiskState) :
    Except String Unit × DiskState :=
  if env.tempCreateOk = false then (.error "TempFile", disk)
  else if env.encodeOk = false then (.error "Encode", { disk with temp := some none })
  else if env.renameOk = false then (.error "Rename", { disk with temp := some (some source) })
  else (.ok (), { dest := some source, temp := none })

/-! ## Journal initialization (src/beater/journalbeat.go lines 47-124) -/

/-- Named seek positions (src/config/config.go lines 41-46). -/
def SeekPositionCursor : String := "cursor"

/-- The head seek position. -/
def SeekPositionHead : String := "head"

/-- The tail seek position. -/
def SeekPositionTail : String := "tail"

/-- The fallback position disabling any fallback. -/
def SeekPositionDefault : String := "none"

/-- Outcomes of the collaborator calls made by `initJournal`. -/
structure InitEnv where
  journalOpenOk : Bool
  addMatchOk : Bool
  readCursorFile : Except Unit String
  seekCursorOk : String → Bool
  seekHeadOk : Bool
  seekTailOk : Bool

/-- The two configuration fields `initJournal` consults for seeking. -/
structure InitConfig where
  seekPosition : String
  cursorSeekFallback : String

/-- Where the journal handle ends up after initialization. -/
inductive SeekOutcome where
  | seekedCursor : String → SeekOutcome
  | seekedHead : SeekOutcome
  | seekedTail : SeekOutcome
  | noSeek : SeekOutcome

/-- The final position switch of `initJournal` (journalbeat.go lines
112-123): only head and tail are cases; any other position leaves the
error variable nil and the function returns success without seeking. -/
def finalSeek (env : InitEnv) (position : String) : Except String SeekOutcome :=
  if position = SeekPositionHead then
    if env.seekHeadOk then .ok .seekedHead
    else .error "Seeking to a good position in journal failed"
  else if position = SeekPositionTail then
    if env.seekTailOk then .ok .seekedTail
    else .error "Seeking to a good position in journal failed"
  else .ok .noSeek

/-- Embedding of `initJournal` (journalbeat.go lines 47-124).  The inner
statement `if cursor, err := ioutil.ReadFile(...); ...` declares a new
`err` that shadows the outer one inside both of its branches, so the
`return err` guarded by `CursorSeekFallback == "none"` (line 106) returns
the OUTER `err` — which is nil on every path that reaches it, because every
earlier non-nil assignment to it already returned.  The embedding renders
that path as it executes: success, with no seek performed. -/
def initJournal (env : InitEnv) (cfg : InitConfig) : Except String SeekOutcome :=
  if env.journalOpenOk = false then .error "connect to journal failed"
  else if env.addMatchOk = false then .error "Filtering unit failed"
  else if cfg.seekPosition = SeekPositionCursor then
    match env.readCursorFile with
    | .ok c =>
      if env.seekCursorOk c then .ok (.seekedCursor c)
      else if cfg.cursorSeekFallback = SeekPositionDefault then .ok .noSeek
      else finalSeek env cfg.cursorSeekFallback
    | .error _ =>
      if cfg.cursorSeekFallback = SeekPositionDefault then .ok .noSeek
      else finalSeek env cfg.cursorSeekFallback
  else finalSeek env cfg.seekPosition

/-- Environment in which the cursor state file is unreadable and head/tail
seeks succeed. -/
def envReadFail : InitEnv :=
  { journalOpenOk := true, addMatchOk := true, readCursorFile := .error ()
  , seekCursorOk := fun _ => false, seekHeadOk := true, seekTailOk := true }

/-- Environment in which the cursor state file reads fine but the seek to
the saved cursor is rejected, and head/tail seeks succeed. -/
def envSeekFail : InitEnv :=
  { journalOpenOk := true, addMatchOk := true, readCursorFile := .ok "c0"
  , seekCursorOk := fun _ => false, seekHeadOk := true, seekTailOk := true }

/-- Acknowledgment events do not touch the cursor loop state. -/
theorem writeCursorRun_filter_acks (es : List RunEvent) (s : CursorState) :
    writeCursorRun s es = writeCursorRun s (es.filter isIntake) := by
  induction es generalizing s with
  | nil => rfl
  | cons e es ih =>
    cases e with
    | intake c t => simpa [writeCursorRun, isIntake] using ih (writeCursorStep s (.intake c t))
    | ack c => simpa [writeCursorRun, writeCursorStep, isIntake] using ih s

/-- The values appended to the write log by a run form a sublist of the
cursors received, in intake order. -/
theorem writeCursorRun_writeLog_sublist (es : List RunEvent) (s : CursorState) :
    ∃ t, (writeCursorRun s es).writeLog = s.writeLog ++ t ∧
      t.Sublist (intakeCursors es) := by
  induction es generalizing s with
  | nil => exact ⟨[], by simp [writeCursorRun], List.Sublist.refl _⟩
  | cons e es ih =>
    cases e with
    | intake c tick =>
      cases tick with
      | false =>
        obtain ⟨t, ht, hs⟩ := ih { s with cursor := c }
        exact ⟨t, by simpa [writeCursorRun, writeCursorStep] using ht,
          hs.trans (List.sublist_cons_self c (intakeCursors es))⟩
      | true =>
        by_cases hc : c = ""
        · obtain ⟨t, ht, hs⟩ := ih { s with cursor := c }
          refine ⟨t, ?_, hs.trans (List.sublist_cons_self c (intakeCursors es))⟩
          simpa [writeCursorRun, writeCursorStep, saveCursorState, hc] using ht
        · obtain ⟨t, ht, hs⟩ :=
            ih { s with cursor := c, stateFile := some c, writeLog := s.writeLog ++ [c] }
          refine ⟨c :: t, ?_, ?_⟩
          · simpa [writeCursorRun, writeCursorStep, saveCursorState, hc] using ht
          · exact (List.cons_sublist_cons).2 hs
    | ack c =>
      obtain ⟨t, ht, hs⟩ := ih s
      exact ⟨t, by simpa [writeCursorRun, writeCursorStep] using ht, hs⟩

/-- After a run, the loop variable holds the last received cursor. -/
theorem writeCursorRun_cursor_last (es : List RunEvent) (s : CursorState) :
    (writeCursorRun s es).cursor = lastOrDefault (intakeCursors es) s.cursor := by
  induction es generalizing s with
  | nil => rfl
  | cons e es ih =>
    cases e with
    | intake c tick =>
      have hc : (writeCursorStep s (.intake c tick)).cursor = c := by
        cases tick
        · rfl
        · by_cases h : c = "" <;> simp [writeCursorStep, saveCursorState, h]
      calc (writeCursorRun s (.intake c tick :: es)).cursor
          = lastOrDefault (intakeCursors es) (writeCursorStep s (.intake c tick)).cursor := ih _
        _ = lastOrDefault (intakeCursors es) c := by rw [hc]
        _ = lastOrDefault (intakeCursors (.intake c tick :: es)) s.cursor := rfl
    | ack c => simpa [writeCursorRun, writeCursorStep, intakeCursors] using ih s

/-- C2.  For every interleaving of intakes and acknowledgments: the run is
unchanged when every acknowledgment event is removed (the checkpoint never
depends on acknowledgment arrival order); the sequence of values written to
the cursor state file is a sublist of the cursors in intake order (the
checkpoint never regresses to an earlier cursor); after the run the loop
variable is the most recently received cursor, which is what the final
shutdown flush writes; and each tick write emits exactly the cursor most
recently received at that point. -/
theorem writeCursor_checkpoint_intake_order (es : List RunEvent) :
    writeCursorRun initialCursorState es =
      writeCursorRun initialCursorState (es.filter isIntake) ∧
    (writeCursorRun initialCursorState es).writeLog.Sublist (intakeCursors es) ∧
    (writeCursorRun initialCursorState es).cursor = lastOrDefault (intakeCursors es) "" ∧
    (writeCursorShutdown (writeCursorRun initialCursorState es)).writeLog =
      (writeCursorRun initialCursorState es).writeLog ++
        (if lastOrDefault (intakeCursors es) "" = "" then []
         else [lastOrDefault (intakeCursors es) ""]) ∧
    ∀ (s : CursorState) (c : String),
      (writeCursorStep s (.intake c true)).writeLog =
        s.writeLog ++ (if c = "" then [] else [c]) := by
  have hcur := writeCursorRun_cursor_last es initialCursorState
  refine ⟨writeCursorRun_filter_acks es _, ?_, hcur, ?_, ?_⟩
  · obtain ⟨t, ht, hs⟩ := writeCursorRun_writeLog_sublist es initialCursorState
    have ht2 : (writeCursorRun initialCursorState es).writeLog = t := by
      simpa [initialCursorState] using ht
    rw [ht2]
    exact hs
  · rw [writeCursorShutdown, saveCursorState, hcur]
    by_cases hL : lastOrDefault (intakeCursors es) "" = "" <;>
      simp [initialCursorState, hL]
  · intro s c
    by_cases hc : c = "" <;> simp [writeCursorStep, saveCursorState, hc]

end Journalbeat

namespace Journalbeat

/-- C4.  The claim says the value is returned as an unchanged string when
`convert_to_numbers` is disabled; the code converts the six boolean
spellings before — and regardless of — the flag check, so disabling the
option still yields a boolean for the input "true". -/
theorem makeNewValue_disabled_bool_counterexample :
    makeNewValue "true" false = Value.vbool true ∧
    makeNewValue "true" false ≠ Value.vstr "true" := by
  refine ⟨rfl, fun h => ?_⟩
  rw [show makeNewValue "true" false = Value.vbool true from rfl] at h
  exact Value.noConfusion h

/-- C4 (amended).  Under `convert_scalars` the value is parsed by the
ordered attempt list boolean, unsigned integer, signed integer, float, with
the first success determining the typed result and unparseable values
remaining strings; when the option is disabled the boolean spellings are
still converted to booleans and every other value is returned as a string
unchanged. -/
theorem makeNewValue_ordered_parse (s : String) :
    makeNewValue s true = specOrderedScalar s ∧
    makeNewValue s false =
      (match specParseBool s with
       | some b => Value.vbool b
       | none => Value.vstr s) := by
  constructor
  · unfold makeNewValue specOrderedScalar specParseBool
    by_cases h1 : s = "true" ∨ s = "TRUE" ∨ s = "True"
    · simp [h1]
    · by_cases h2 : s = "false" ∨ s = "FALSE" ∨ s = "False" <;> simp [h1, h2]
  · unfold makeNewValue specParseBool
    by_cases h1 : s = "true" ∨ s = "TRUE" ∨ s = "True"
    · simp [h1]
    · by_cases h2 : s = "false" ∨ s = "FALSE" ∨ s = "False" <;> simp [h1, h2]

/-- C1.  At a reconciliation tick at which the queue has changed, the new
pending set is `diff pending completed`, exactly that set is persisted to
the pending-queue file, the in-memory pending map is replaced with it and
the completed map is reset to empty; and in the end-to-end scenario —
dispatch c1..c5, acknowledge c2 and c4 only, reconcile — the persisted
pending mapping holds exactly the keys c1, c3, c5. -/
theorem managePendingQueue_tick_reconciles (s : TrackerState)
    (h : s.queueChanged = true) :
    managePendingQueueStep s .tick =
      { pending := diff s.pending s.completed
        completed := []
        queueChanged := false
        fileContent := diff s.pending s.completed
        writeCount := s.writeCount + 1 } ∧
    listKeys (managePendingQueueRun initialTrackerState dispatchAckEvents).fileContent =
      ["c1", "c3", "c5"] := by
  refine ⟨?_, rfl⟩
  simp [managePendingQueueStep, h]

/-- C1 witness: the tick theorem applied at a concrete changed state. -/
theorem managePendingQueue_tick_reconciles_witness :
    managePendingQueueStep
        { pending := [("c1", [("m", Value.vstr "b1")])]
          completed := []
          queueChanged := true
          fileContent := []
          writeCount := 0 } .tick =
      { pending := diff [("c1", [("m", Value.vstr "b1")])] []
        completed := []
        queueChanged := false
        fileContent := diff [("c1", [("m", Value.vstr "b1")])] []
        writeCount := 1 } ∧
    listKeys (managePendingQueueRun initialTrackerState dispatchAckEvents).fileContent =
      ["c1", "c3", "c5"] :=
  managePendingQueue_tick_reconciles
    { pending := [("c1", [("m", Value.vstr "b1")])]
      completed := []
      queueChanged := true
      fileContent := []
      writeCount := 0 } rfl

/-- C6.  A reconciliation tick at which nothing has arrived since the last
tick is a no-op: the in-memory maps, the persisted file content and the
write count are all unchanged, and any further run consisting only of ticks
stays at the same state. -/
theorem managePendingQueue_tick_noop (s : TrackerState)
    (h : s.queueChanged = false) :
    managePendingQueueStep s .tick = s ∧
    ∀ n : Nat, managePendingQueueRun s (List.replicate n .tick) = s := by
  have hstep : managePendingQueueStep s .tick = s := by
    simp [managePendingQueueStep, h]
  refine ⟨hstep, fun n => ?_⟩
  induction n with
  | zero => rfl
  | succ k ih =>
    simpa [managePendingQueueRun, List.replicate_succ, hstep] using ih

/-- C3.  Feeding the records "error in foo", " stack line 1",
" stack line 2", "next message" (in that order, one stream key) to the
continuation buffer flushes exactly one merged record, whose message is the
newline-join of the buffered record with both continuation lines, and the
buffer then holds "next message" as the new buffered record for the key. -/
theorem flushOrBufferLogs_merge_scene :
    (runFlushOrBufferLogs 0 [] contScene).map
        (fun r => (r.2.map (fun e => lookupStr e "message"),
                   (mapLookup r.1 "k").map (fun b => lookupStr b.logEvent "message"))) =
      some ([some "error in foo\n stack line 1\n stack line 2"],
            some (some "next message")) := by
  rfl

/-- C9.  Under the preconditions that the record carries string-typed
message and stream-key fields and every buffered record carries a
string-typed message, the intake operation reaches its error branch (the Go
panic on the unchecked `arrChars[0]` index) exactly when the incoming
message is the empty string. -/
theorem flushOrBufferLogs_none_iff_empty (now : Nat) (bufs : List (String × LogBuffer))
    (event : MapStr) (msg ltype : String)
    (hm : lookupStr event "message" = some msg)
    (ht : lookupStr event "logBufferingType" = some ltype)
    (hwf : ∀ p ∈ bufs, (lookupStr p.2.logEvent "message").isSome = true) :
    (flushOrBufferLogs now bufs event = none) ↔ msg = "" := by
  unfold flushOrBufferLogs
  rw [hm, ht]
  cases msg with
  | mk l =>
    cases l with
    | nil => simp
    | cons c0 rest =>
      have hne : String.mk (c0 :: rest) ≠ "" := by
        intro h
        exact List.noConfusion (congrArg String.data h)
      apply iff_of_false ?_ hne
      show ¬((match c0 :: rest with
        | [] => none
        | c0 :: _ =>
          if c0 = ' ' ∨ c0 = '\t' then
            match mapLookup bufs ltype with
            | some oldLog =>
              match lookupStr oldLog.logEvent "message" with
              | some oldMessage =>
                let merged := mapUpdate oldLog.logEvent "message"
                  (Value.vstr (oldMessage ++ "\n" ++ String.mk (c0 :: rest)))
                some (mapUpdate bufs ltype { oldLog with logEvent := merged, time := now }, [])
              | none => none
            | none =>
              some (mapUpdate bufs ltype { time := now, logType := ltype, logEvent := event }, [])
          else
            let old := mapLookup bufs ltype
            let bufs1 := mapUpdate bufs ltype { time := now, logType := ltype, logEvent := event }
            match old with
            | some oldLogBuffer => some (bufs1, [oldLogBuffer.logEvent])
            | none => some (bufs1, [])) = none)
      by_cases hc : c0 = ' ' ∨ c0 = '\t'
      · simp only [if_pos hc]
        cases hfind : mapLookup bufs ltype with
        | none => simp
        | some oldLog =>
          have hmem : oldLog ∈ bufs.map Prod.snd := by
            rcases Option.map_eq_some'.1 hfind with ⟨p, hp, hp2⟩
            exact hp2 ▸ List.mem_map_of_mem Prod.snd (List.mem_of_find?_eq_some hp)
          rcases List.mem_map.1 hmem with ⟨p, hpmem, hpeq⟩
          obtain ⟨s, hs⟩ := Option.isSome_iff_exists.1 (hwf p hpmem)
          rw [hpeq] at hs
          simp [hs]
      · simp only [if_neg hc]
        cases hfind : mapLookup bufs ltype <;> simp

/-- C9 witness: the totality theorem applied at an empty-message record
against an empty buffer map; the intake reaches the error branch. -/
theorem flushOrBufferLogs_none_iff_empty_witness :
    (flushOrBufferLogs 0 [] (contEvent "") = none) ↔ ("" : String) = "" :=
  flushOrBufferLogs_none_iff_empty 0 [] (contEvent "") "" "k" rfl rfl
    (fun p hp => absurd hp (List.not_mem_nil p))

/-- Updating a present key keeps the key list unchanged; updating an absent
key appends it. -/
theorem listKeys_mapUpdate {α : Type} (m : List (String × α)) (k : String) (v : α) :
    listKeys (mapUpdate m k v) =
      if m.any (fun e => e.1 == k) then listKeys m else listKeys m ++ [k] := by
  unfold mapUpdate listKeys
  by_cases h : m.any (fun e => e.1 == k)
  · rw [if_pos h, if_pos h, List.map_map]
    apply List.map_congr_left
    intro e _
    by_cases hk : e.1 = k
    · simp [hk]
    · simp [hk]
  · rw [if_neg h, if_neg h, List.map_append]
    rfl

/-- Key membership after a Go map assignment. -/
theorem mem_listKeys_mapUpdate {α : Type} (m : List (String × α)) (k k2 : String) (v : α) :
    k2 ∈ listKeys (mapUpdate m k v) ↔ k2 ∈ listKeys m ∨ k2 = k := by
  rw [listKeys_mapUpdate]
  by_cases h : m.any (fun e => e.1 == k)
  · rw [if_pos h]
    refine ⟨Or.inl, ?_⟩
    rintro (h2 | rfl)
    · exact h2
    · rcases List.any_eq_true.1 h with ⟨e, he, hek⟩
      have he2 : e.1 = k2 := by simpa using hek
      exact he2 ▸ List.mem_map_of_mem Prod.fst he
  · rw [if_neg h]
    simp [listKeys]

/-- Key membership after folding a field list into a Go map. -/
theorem mem_listKeys_foldl (l : List (String × Value)) (init : MapStr) (k : String) :
    k ∈ listKeys (l.foldl (fun t e => mapUpdate t e.1 e.2) init) ↔
      k ∈ listKeys init ∨ k ∈ listKeys l := by
  induction l generalizing init with
  | nil => simp [listKeys]
  | cons e l ih =>
    rw [List.foldl_cons, ih, mem_listKeys_mapUpdate]
    simp only [listKeys, List.map_cons, List.mem_cons]
    tauto

/-- Key membership in the non-message portion of a field list. -/
theorem mem_listKeys_filter_not_message (l : List (String × Value)) (k : String) :
    k ∈ listKeys (l.filter (fun e => !(e.1 == "message"))) ↔
      k ≠ "message" ∧ k ∈ listKeys l := by
  simp only [listKeys, List.mem_map, List.mem_filter, Bool.not_eq_true', beq_eq_false_iff_ne]
  constructor
  · rintro ⟨e, ⟨hmem, hne⟩, rfl⟩
    exact ⟨hne, e, hmem, rfl⟩
  · rintro ⟨hne, e, hmem, rfl⟩
    exact ⟨e, ⟨hmem, hne⟩, rfl⟩

/-- Looking up the head of a relocation chain walks to its deepest map. -/
theorem nestedAt_of_lookup_chain (ds : List String) (m : MapStr) (d : String) (tgt : MapStr)
    (hm : mapLookup m d = some (nestChain ds tgt)) :
    nestedAt m (d :: ds) = some tgt := by
  induction ds generalizing m d with
  | nil => simp [nestedAt, hm, nestChain]
  | cons d2 ds ih =>
    have hstep : nestedAt m (d :: d2 :: ds) = nestedAt [(d2, nestChain ds tgt)] (d2 :: ds) := by
      simp [nestedAt, hm, nestChain]
    rw [hstep]
    exact ih _ _ (by simp [mapLookup])

/-- C5.  The claim quantifies over every non-empty relocation path, but the
path "message" breaks it: on the record MESSAGE=hi, FOO=bar with relocation
path "message", the output is only the top-level message entry, and the
non-message field foo is not placed under any nested mapping — the
top-level message write replaces the chain entry that held the relocated
fields, exactly as the Go aliasing does. -/
theorem MapStrFromJournalEntry_message_path_counterexample :
    MapStrFromJournalEntry [("MESSAGE", "hi"), ("FOO", "bar")] true false "message" false false
      = [("message", Value.vstr "hi")] ∧
    ¬ ∃ tgt,
        nestedAt
          (MapStrFromJournalEntry [("MESSAGE", "hi"), ("FOO", "bar")] true false "message" false false)
          (goStringsSplit "message" '.') = some tgt ∧
        mapLookup tgt "foo" = some (Value.vstr "bar") := by
  refine ⟨rfl, ?_⟩
  rintro ⟨tgt, h1, h2⟩
  rw [show nestedAt
      (MapStrFromJournalEntry [("MESSAGE", "hi"), ("FOO", "bar")] true false "message" false false)
      (goStringsSplit "message" '.') = none from rfl] at h1
  exact Option.noConfusion h1

/-- C5 (amended).  For every raw record and every non-empty relocation path
whose first segment is not the message key, the transformer places exactly
the non-message fields under the nested mappings named by the path segments
and nothing but the path head and the message field at the top level, where
the message field sits exactly when some field cleans to the message key;
an empty relocation path leaves every field at the top level.  (When the
first path segment is the message key, a message field overwrites the
relocation mapping, see the counterexample.) -/
theorem MapStrFromJournalEntry_relocation (fields : List (String × String))
    (ck cn pp pf : Bool) (loc d : String) (ds : List String)
    (hsplit : goStringsSplit loc '.' = d :: ds) (hd : d ≠ "message") (hloc : loc ≠ "") :
    (∀ k, k ∈ listKeys (MapStrFromJournalEntry fields ck cn loc pp pf) →
        k = d ∨ k = "message") ∧
    (∃ tgt, nestedAt (MapStrFromJournalEntry fields ck cn loc pp pf) (d :: ds) = some tgt ∧
        ∀ k, k ∈ listKeys tgt ↔
          (k ≠ "message" ∧ k ∈ listKeys (fields.map (processField ck cn pp pf)))) ∧
    ((∃ v, mapLookup (MapStrFromJournalEntry fields ck cn loc pp pf) "message" = some v) ↔
        "message" ∈ listKeys (fields.map (processField ck cn pp pf))) ∧
    (∀ k, k ∈ listKeys (MapStrFromJournalEntry fields ck cn "" pp pf) ↔
        k ∈ listKeys (fields.map (processField ck cn pp pf))) := by
  have hdb : (d == "message") = false := beq_eq_false_iff_ne.2 hd
  have hflat : ∀ k, k ∈ listKeys (MapStrFromJournalEntry fields ck cn "" pp pf) ↔
      k ∈ listKeys (fields.map (processField ck cn pp pf)) := by
    intro k
    unfold MapStrFromJournalEntry
    rw [if_pos rfl, mem_listKeys_foldl]
    simp [listKeys]
  have htgt : ∀ k,
      k ∈ listKeys (((fields.map (processField ck cn pp pf)).filter
          (fun e => !(e.1 == "message"))).foldl (fun t e => mapUpdate t e.1 e.2) []) ↔
        (k ≠ "message" ∧ k ∈ listKeys (fields.map (processField ck cn pp pf))) := by
    intro k
    rw [mem_listKeys_foldl, mem_listKeys_filter_not_message]
    simp [listKeys]
  rcases hlast : ((fields.map (processField ck cn pp pf)).filter
      (fun e => e.1 == "message")).getLast? with _ | e
  · have hout : MapStrFromJournalEntry fields ck cn loc pp pf =
        [(d, nestChain ds (((fields.map (processField ck cn pp pf)).filter
            (fun e => !(e.1 == "message"))).foldl (fun t e => mapUpdate t e.1 e.2) []))] := by
      unfold MapStrFromJournalEntry
      rw [if_neg hloc, hsplit, hlast]
    have hnomsg : "message" ∉ listKeys (fields.map (processField ck cn pp pf)) := by
      intro hmem
      have hnil := List.getLast?_eq_none_iff.1 hlast
      rcases List.mem_map.1 hmem with ⟨e, hemem, heq⟩
      have : e ∈ ((fields.map (processField ck cn pp pf)).filter
          (fun e => e.1 == "message")) :=
        List.mem_filter.2 ⟨hemem, by simp [heq]⟩
      rw [hnil] at this
      exact absurd this (List.not_mem_nil e)
    refine ⟨?_, ⟨_, nestedAt_of_lookup_chain ds _ d _ (by simp [hout, mapLookup]), htgt⟩, ?_, hflat⟩
    · intro k hk
      rw [hout] at hk
      simp only [listKeys, List.map_cons, List.map_nil, List.mem_singleton] at hk
      exact Or.inl hk
    · rw [hout]
      constructor
      · rintro ⟨v, hv⟩
        exfalso
        simp [mapLookup, List.find?, hdb] at hv
      · intro hmem
        exact absurd hmem hnomsg
  · have hout : MapStrFromJournalEntry fields ck cn loc pp pf =
        [(d, nestChain ds (((fields.map (processField ck cn pp pf)).filter
            (fun e => !(e.1 == "message"))).foldl (fun t e => mapUpdate t e.1 e.2) [])),
         ("message", e.2)] := by
      unfold MapStrFromJournalEntry
      rw [if_neg hloc, hsplit, hlast]
      simp [mapUpdate, hdb]
    have hmsg : "message" ∈ listKeys (fields.map (processField ck cn pp pf)) := by
      have hmem : e ∈ ((fields.map (processField ck cn pp pf)).filter
          (fun p => p.1 == "message")) :=
        List.mem_of_mem_getLast? (by rw [hlast]; exact rfl)
      have h1 := (List.mem_filter.1 hmem).1
      have h2 : e.1 = "message" := by simpa using (List.mem_filter.1 hmem).2
      exact h2 ▸ List.mem_map_of_mem Prod.fst h1
    refine ⟨?_, ⟨_, nestedAt_of_lookup_chain ds _ d _ (by simp [hout, mapLookup]), htgt⟩, ?_, hflat⟩
    · intro k hk
      rw [hout] at hk
      simp only [listKeys, List.map_cons, List.map_nil, List.mem_cons,
        List.mem_singleton, List.not_mem_nil, or_false] at hk
      exact hk
    · rw [hout]
      refine ⟨fun _ => hmsg, fun _ => ⟨e.2, ?_⟩⟩
      simp [mapLookup, List.find?, hdb]

/-- C5 witness: the relocation theorem applied to a concrete record with
the relocation path a.b.c. -/
theorem MapStrFromJournalEntry_relocation_witness :
    ∃ tgt, nestedAt
        (MapStrFromJournalEntry [("A", "1"), ("MESSAGE", "hello")] true false "a.b.c" false false)
        ["a", "b", "c"] = some tgt ∧
      ∀ k, k ∈ listKeys tgt ↔
        (k ≠ "message" ∧
         k ∈ listKeys ([("A", "1"), ("MESSAGE", "hello")].map (processField true false false false))) :=
  (MapStrFromJournalEntry_relocation [("A", "1"), ("MESSAGE", "hello")] true false false false
    "a.b.c" "a" ["b", "c"] (by decide) (by decide) (by decide)).2.1

mutual

/-- Decoding after encoding is the identity on values free of integer
scalars. -/
theorem decode_encode_value : ∀ (v : Value), valueIntFree v = true →
    decodeValue (encodeValue v) = v
  | .vstr _, _ => rfl
  | .vbool _, _ => rfl
  | .vuint _, h => by simp [valueIntFree] at h
  | .vint _, h => by simp [valueIntFree] at h
  | .vfloat _, _ => rfl
  | .vmap l, h => by
    have hl := decode_encode_fields l (by simpa [valueIntFree] using h)
    simp [encodeValue, decodeValue, hl]

/-- Decoding after encoding is the identity on maps free of integer
scalars. -/
theorem decode_encode_fields : ∀ (l : List (String × Value)), fieldsIntFree l = true →
    decodeFields (encodeFields l) = l
  | [], _ => rfl
  | e :: rest, h => by
    have hsplit : valueIntFree e.2 = true ∧ fieldsIntFree rest = true := by
      simpa [fieldsIntFree, Bool.and_eq_true] using h
    have he := decode_encode_value e.2 hsplit.1
    have hr := decode_encode_fields rest hsplit.2
    simp [encodeFields, decodeFields, he, hr]

end

/-- C7.  Persisting the pending map whose single body holds the unsigned
integer 2 and loading it back yields a float-typed 2: Go json decodes every
number into a `float64`, so the round trip is not the identity mapping the
claim states. -/
theorem pendingFile_roundtrip_counterexample :
    decodePendingFile (encodePendingFile [("c1", [("k", Value.vuint 2)])]) =
      some [("c1", [("k", Value.vfloat ((2 : Nat) : Rat))])] ∧
    decodePendingFile (encodePendingFile [("c1", [("k", Value.vuint 2)])]) ≠
      some [("c1", [("k", Value.vuint 2)])] := by
  refine ⟨rfl, fun h => ?_⟩
  have hp := congrArg pendingProbe h
  rw [show pendingProbe
        (decodePendingFile (encodePendingFile [("c1", [("k", Value.vuint 2)])])) = true from rfl,
      show pendingProbe (some [("c1", [("k", Value.vuint 2)])]) = false from rfl] at hp
  exact Bool.noConfusion hp

/-- C7 (amended).  The persistence round trip of the pending-queue file is
the identity exactly on maps whose bodies use only string, boolean and
float scalars (and nested maps of those); integer-typed values come back
float-typed — with the same numeric value — because Go json decodes every
number into a `float64`. -/
theorem pendingFile_roundtrip_intFree (m : PendingMap) (h : pendingIntFree m = true) :
    decodePendingFile (encodePendingFile m) = some m := by
  induction m with
  | nil => rfl
  | cons e rest ih =>
    have hsplit : fieldsIntFree e.2 = true ∧ pendingIntFree rest = true := by
      simpa [pendingIntFree, List.all_cons, Bool.and_eq_true] using h
    have hrest : decodePendingEntries
        (rest.map (fun p => (p.1, JVal.jobj (encodeFields p.2)))) = some rest := by
      have := ih hsplit.2
      simpa [encodePendingFile, decodePendingFile] using this
    simp [encodePendingFile, decodePendingFile, decodePendingEntries, decodeBody,
      decode_encode_fields e.2 hsplit.1, hrest]

/-- C7 witness: the round-trip theorem applied at a concrete pending map of
string, boolean and float values. -/
theorem pendingFile_roundtrip_intFree_witness :
    decodePendingFile (encodePendingFile
        [("c1", [("k", Value.vstr "v"), ("b", Value.vbool true), ("f", Value.vfloat 1)])]) =
      some [("c1", [("k", Value.vstr "v"), ("b", Value.vbool true), ("f", Value.vfloat 1)])] :=
  pendingFile_roundtrip_intFree
    [("c1", [("k", Value.vstr "v"), ("b", Value.vbool true), ("f", Value.vfloat 1)])] rfl

/-- C10.  When creating the temporary file fails, or encoding the pending
map into it fails, `flush` returns the error before any rename, and the
destination pending-queue file is unchanged. -/
theorem flushPendingQueue_error_preserves_dest (env : FlushEnv) (source : PendingMap)
    (disk : DiskState) (h : env.tempCreateOk = false ∨ env.encodeOk = false) :
    (∃ msg, (flushPendingQueue env source disk).1 = Except.error msg) ∧
    (flushPendingQueue env source disk).2.dest = disk.dest := by
  rcases h with h | h
  · exact ⟨⟨"TempFile", by simp [flushPendingQueue, h]⟩, by simp [flushPendingQueue, h]⟩
  · by_cases h1 : env.tempCreateOk = false
    · exact ⟨⟨"TempFile", by simp [flushPendingQueue, h1]⟩, by simp [flushPendingQueue, h1]⟩
    · exact ⟨⟨"Encode", by simp [flushPendingQueue, h1, h]⟩, by simp [flushPendingQueue, h1, h]⟩

/-- C10 witness: the atomicity theorem applied at a concrete failing
environment and a concrete prior disk. -/
theorem flushPendingQueue_error_preserves_dest_witness :
    (∃ msg, (flushPendingQueue { tempCreateOk := true, encodeOk := false, renameOk := true }
        [("c1", [("k", Value.vstr "v")])]
        { dest := some [("c0", [])], temp := none }).1 = Except.error msg) ∧
    (flushPendingQueue { tempCreateOk := true, encodeOk := false, renameOk := true }
        [("c1", [("k", Value.vstr "v")])]
        { dest := some [("c0", [])], temp := none }).2.dest = some [("c0", [])] :=
  flushPendingQueue_error_preserves_dest
    { tempCreateOk := true, encodeOk := false, renameOk := true }
    [("c1", [("k", Value.vstr "v")])]
    { dest := some [("c0", [])], temp := none } (Or.inr rfl)

/-- C8.  The fallback half of the claim holds: when cursor resume fails —
the state file unreadable, or the seek rejected — initialization falls back
to the configured head or tail position.  The "none" half diverges from the
claim: because the Go `return err` under `CursorSeekFallback == "none"`
returns a shadowed-out, necessarily nil error, initialization reports
success with no seek performed instead of the fatal startup error the claim
(and the spec) require. -/
theorem initJournal_fallback_shadowed_err :
    initJournal envReadFail { seekPosition := "cursor", cursorSeekFallback := "head" } =
      .ok .seekedHead ∧
    initJournal envSeekFail { seekPosition := "cursor", cursorSeekFallback := "tail" } =
      .ok .seekedTail ∧
    initJournal envReadFail { seekPosition := "cursor", cursorSeekFallback := "none" } =
      .ok .noSeek ∧
    initJournal envSeekFail { seekPosition := "cursor", cursorSeekFallback := "none" } =
      .ok .noSeek :=
  ⟨rfl, rfl, rfl, rfl⟩

/-- C6 witness: the no-op theorem applied at a concrete unchanged state. -/
theorem managePendingQueue_tick_noop_witness :
    managePendingQueueStep
        { pending := [("c1", [("m", Value.vstr "b1")])]
          completed := []
          queueChanged := false
          fileContent := [("c1", [("m", Value.vstr "b1")])]
          writeCount := 1 } .tick =
      { pending := [("c1", [("m", Value.vstr "b1")])]
        completed := []
        queueChanged := false
        fileContent := [("c1", [("m", Value.vstr "b1")])]
        writeCount := 1 } :=
  (managePendingQueue_tick_noop _ rfl).1

end Journalbeat
